import Mathlib

/-!
Shallow embedding of the F1 telemetry delta pipeline
(`delta_calculator_module.py`, class `F1TelemetryDeltaCalculator`).

Telemetry channels are modelled as parallel lists of rationals, mirroring
the numpy arrays of the source: a trace is a `Distance` list (meters) plus
a `Speed` list (km/h) of the same length, gaining a `Time` list (seconds)
after time reconstruction.  Real arithmetic is idealised over `ℚ`.
-/

namespace F1Delta

/-- Successive differences `l[i+1] - l[i]` (`np.diff`). -/
def diffList (l : List ℚ) : List ℚ :=
  List.zipWith (fun a b => b - a) l l.tail

/-- Minimum of a list (`Series.min()`); value for the empty list is
irrelevant (the source would fail there, a precondition). -/
def listMin (l : List ℚ) : ℚ :=
  l.foldl min (l.headD 0)

/-- Maximum of a list (`Series.max()`). -/
def listMax (l : List ℚ) : ℚ :=
  l.foldl max (l.headD 0)

/-- Executable ceiling of a rational (the `FloorRing` ceiling does not
kernel-reduce): for `q = n/d` with `d > 0`, `⌈q⌉ = ⌊(n + d - 1) / d⌋`. -/
def ratCeil (q : ℚ) : ℤ :=
  Int.fdiv (q.num + (q.den : ℤ) - 1) (q.den : ℤ)

/-- Embedding of `np.arange(a, b, step)`: `a, a+step, ...` while strictly
below `b` (for positive `step` the length is the ceiling of `(b-a)/step`). -/
def arange (a b step : ℚ) : List ℚ :=
  (List.range (ratCeil ((b - a) / step)).toNat).map (fun k => a + (k : ℚ) * step)

/-- Embedding of `np.linspace(a, b, n)`: `n` evenly spaced points from `a`
to `b`, endpoint included. -/
def linspace (a b : ℚ) (n : ℕ) : List ℚ :=
  (List.range n).map (fun i => a + (b - a) * (i : ℚ) / ((n : ℚ) - 1))

/-- Embedding of `np.interp(x, xp, fp)` for increasing knots `xp`:
piecewise-linear interpolation with boundary clamping (queries left of the
first knot take the first value, right of the last knot the last value). -/
def interp (x : ℚ) : List ℚ → List ℚ → ℚ
  | x1 :: x2 :: xs, y1 :: y2 :: ys =>
    if x ≤ x1 then y1
    else if x ≤ x2 then y1 + (y2 - y1) * (x - x1) / (x2 - x1)
    else interp x (x2 :: xs) (y2 :: ys)
  | [_], y1 :: _ => y1
  | _, _ => 0

/-- Speed conversion km/h → m/s (`speeds / 3.6`, lines 84 and 213f). -/
def kmhToMs (s : List ℚ) : List ℚ :=
  s.map (fun v => v / (3.6 : ℚ))

/-! ## Step 1 — `calculate_custom_time` (lines 72–108) -/

/-- The per-segment divisors of `calculate_custom_time`: arithmetic mean of
the two endpoint speeds in m/s, with exact zeros replaced by `0.001`
(`np.where(avg_speeds == 0, 0.001, avg_speeds)`, line 90). -/
def customDivisors (speeds_kmh : List ℚ) : List ℚ :=
  let ms := kmhToMs speeds_kmh
  (List.zipWith (fun a b => (a + b) / 2) ms ms.tail).map
    (fun v => if v = 0 then (0.001 : ℚ) else v)

/-- Embedding of `calculate_custom_time`: reconstruct the time channel by integrating
`dt = ds / avg_speed`, cumulative-summing from 0, and rescaling to the real
lap time when the raw total is positive (lines 72–108).  Returns the new
`Time` column. -/
def calculate_custom_time (distances speeds : List ℚ) (real_laptime : ℚ) : List ℚ :=
  let dt := List.zipWith (fun a b => a / b) (diffList distances) (customDivisors speeds)
  let custom_time := List.scanl (· + ·) 0 dt
  if 0 < custom_time.getLastD 0 then
    custom_time.map (fun t => t * (real_laptime / custom_time.getLastD 0))
  else
    custom_time

/-! ## Step 2 — `windowed_mse_alignment` (lines 110–178) -/

/-- Restrict a trace to the samples whose distance lies in
`[window_start, window_end]` inclusive (the boolean masks of
lines 130–131), as (distance, speed) pairs. -/
def windowFilter (d s : List ℚ) (ws we : ℚ) : List (ℚ × ℚ) :=
  (d.zip s).filter (fun p => decide (ws ≤ p.1 ∧ p.1 ≤ we))

/-- Candidate offsets `np.arange(-15, 16, 1)` (line 143). -/
def offsetCandidates : List ℚ :=
  (List.range 31).map (fun k => (k : ℚ) - 15)

/-- MSE of one candidate offset for one window (lines 144–163):
shift the target window's distances, intersect the distance ranges,
interpolate both speed curves on a 1 m grid over the intersection and
average the squared differences.  `none` when the intersection is empty
(the `common_max <= common_min` skip, line 151). -/
def offsetMse (w1 w2 : List (ℚ × ℚ)) (o : ℚ) : Option ℚ :=
  let shifted := w2.map (fun p => p.1 + o)
  let cmin := max (listMin (w1.map Prod.fst)) (listMin shifted)
  let cmax := min (listMax (w1.map Prod.fst)) (listMax shifted)
  if cmax ≤ cmin then none
  else
    let grid := arange cmin (cmax + 1) 1
    let i1 := grid.map (fun x => interp x (w1.map Prod.fst) (w1.map Prod.snd))
    let i2 := grid.map (fun x => interp x shifted (w2.map Prod.snd))
    let sq := (List.zipWith (fun a b => (a - b) ^ 2) i1 i2)
    some (sq.sum / (sq.length : ℚ))

/-- The offset search of lines 140–170: scan the candidates in ascending
order, keep the first offset whose MSE is strictly below the best so far
(`none` models the initial `float('inf')`); offsets with empty
intersection are skipped; the initial best offset is 0. -/
def bestOffset (w1 w2 : List (ℚ × ℚ)) : ℚ :=
  (offsetCandidates.foldl
    (fun st o =>
      match offsetMse w1 w2 o with
      | none => st
      | some m =>
        match st.2 with
        | none => (o, some m)
        | some bm => if m < bm then (o, some m) else st)
    ((0 : ℚ), (none : Option ℚ))).1

/-- Window boundaries `np.linspace(min_dist, max_dist, num_windows + 1)`
over the overlapping span of the two traces (lines 117–121). -/
def windowBoundaries (d1 d2 : List ℚ) (numWindows : ℕ) : List ℚ :=
  linspace (max (listMin d1) (listMin d2)) (min (listMax d1) (listMax d2)) (numWindows + 1)

/-- The effect of one window on a single running distance value: skipped
windows (an empty restriction on either side, line 136) leave it alone;
otherwise the window's best offset is added exactly when the *current*
value lies within the window bounds (the mask of line 173 is evaluated
against `tel2_aligned`, i.e. against already-shifted distances). -/
def alignShift (d1 s1 d2 s2 : List ℚ) (ws we : ℚ) (y : ℚ) : ℚ :=
  if (windowFilter d1 s1 ws we).isEmpty || (windowFilter d2 s2 ws we).isEmpty then y
  else if ws ≤ y ∧ y ≤ we then y + bestOffset (windowFilter d1 s1 ws we) (windowFilter d2 s2 ws we)
  else y

/-- One iteration of the window loop (lines 125–176) acting on the running
aligned distance column.  The search phase uses the *original* traces
(lines 130–131 mask `tel1`/`tel2`); the apply phase masks the running
`tel2_aligned` distances (line 173). -/
def alignStep (d1 s1 d2 s2 : List ℚ) (ws we : ℚ) (dcur : List ℚ) : List ℚ :=
  if (windowFilter d1 s1 ws we).isEmpty || (windowFilter d2 s2 ws we).isEmpty then dcur
  else
    let off := bestOffset (windowFilter d1 s1 ws we) (windowFilter d2 s2 ws we)
    dcur.map (fun x => if ws ≤ x ∧ x ≤ we then x + off else x)

/-- Embedding of `windowed_mse_alignment` (lines 110–178): fold the window loop over the
target trace's distance column; speeds (and times) are untouched. -/
def windowed_mse_alignment (d1 s1 d2 s2 : List ℚ) (numWindows : ℕ) : List ℚ :=
  let bnds := windowBoundaries d1 d2 numWindows
  (List.range numWindows).foldl
    (fun dcur i => alignStep d1 s1 d2 s2 (bnds.getD i 0) (bnds.getD (i + 1) 0) dcur)
    d2

/-! ## Step 3 — `resample_on_common_grid` (lines 180–206) -/

/-- The two traces resampled onto one shared grid. -/
structure Resampled where
  grid : List ℚ
  speed1 : List ℚ
  time1 : List ℚ
  speed2 : List ℚ
  time2 : List ℚ
deriving Repr

/-- Embedding of `resample_on_common_grid`: build the uniform grid
`np.arange(common_min, common_max + grid_step, grid_step)` over the
overlapping span and interpolate both traces' speed and time channels onto
it (lines 180–206). -/
def resample_on_common_grid (d1 s1 tm1 d2 s2 tm2 : List ℚ) (grid_step : ℚ) : Resampled :=
  let cmin := max (listMin d1) (listMin d2)
  let cmax := min (listMax d1) (listMax d2)
  let grid := arange cmin (cmax + grid_step) grid_step
  { grid := grid
    speed1 := grid.map (fun x => interp x d1 s1)
    time1 := grid.map (fun x => interp x d1 tm1)
    speed2 := grid.map (fun x => interp x d2 s2)
    time2 := grid.map (fun x => interp x d2 tm2) }

/-! ## Step 4 — `calculate_integration_delta` (lines 208–266) -/

/-- Per-segment average speeds of the integration step, with the
`max(avg, 0.001)` floor of lines 237–238. -/
def segFloorAvg (ms : List ℚ) : List ℚ :=
  List.zipWith (fun a b => max ((a + b) / 2) (0.001 : ℚ)) ms ms.tail

/-- Per-segment traversal times `ds[i] / avg_speed[i]` (lines 241–242). -/
def segTimes (d ms : List ℚ) : List ℚ :=
  List.zipWith (fun a b => a / b) (diffList d) (segFloorAvg ms)

/-- Raw cumulative delta (lines 229–251): per-segment
`dt_slow - dt_ref`, accumulated from 0. -/
def integrationRawDelta (refMs slowMs d : List ℚ) : List ℚ :=
  List.scanl (· + ·) 0
    (List.zipWith (fun a b => a - b) (segTimes d slowMs) (segTimes d refMs))

/-- Raw cumulative delta with the role assignment of lines 220–226:
driver 1 is the reference iff `time1_final < time2_final`; otherwise
(including the tie) driver 2 is the reference. -/
def integrationRaw (s1 s2 d : List ℚ) (t1 t2 : ℚ) : List ℚ :=
  if t1 < t2 then integrationRawDelta (kmhToMs s1) (kmhToMs s2) d
  else integrationRawDelta (kmhToMs s2) (kmhToMs s1) d

/-- Embedding of `calculate_integration_delta` (lines 208–266).  When the raw final
magnitude is positive the series is rescaled so its final magnitude equals
the real lap-time gap.  When it is zero the source reaches
`print(f"Scale factor: ...")` (line 263) with `scale_factor` never
assigned, raising `UnboundLocalError`; that crash is modelled as the
error result. -/
def calculate_integration_delta (s1 s2 d : List ℚ) (t1 t2 : ℚ) : Except String (List ℚ) :=
  let raw := integrationRaw s1 s2 d t1 t2
  let real_gap := |t1 - t2|
  if 0 < |raw.getLastD 0| then
    Except.ok (raw.map (fun v => v * (real_gap / |raw.getLastD 0|)))
  else
    Except.error "UnboundLocalError: local variable scale_factor referenced before assignment"

/-! ## Pipeline — `calculate_delta`, numerical core (lines 282–324) -/

/-- The numerical core of `calculate_delta` (lines 293–308), after the
external telemetry acquisition: reconstruct both time channels, align
trace 2 against trace 1, resample on the shared grid and integrate the
delta. -/
def calculate_delta_core (d1 s1 d2 s2 : List ℚ) (t1 t2 : ℚ)
    (numWindows : ℕ) (grid_step : ℚ) : Except String (List ℚ) :=
  let tm1 := calculate_custom_time d1 s1 t1
  let tm2 := calculate_custom_time d2 s2 t2
  let d2a := windowed_mse_alignment d1 s1 d2 s2 numWindows
  let r := resample_on_common_grid d1 s1 tm1 d2a s2 tm2 grid_step
  calculate_integration_delta r.speed1 r.speed2 r.grid t1 t2

/-- The behaviour the specification ascribes to the alignment apply step:
each window's chosen offset added to exactly the samples whose *original*
distance lies inside that window's bounds, independently of shifts applied
by earlier windows. -/
def alignment_original_mask (d1 s1 d2 s2 : List ℚ) (numWindows : ℕ) : List ℚ :=
  let bnds := windowBoundaries d1 d2 numWindows
  d2.map (fun x =>
    x + ((List.range numWindows).map (fun i =>
      let ws := bnds.getD i 0
      let we := bnds.getD (i + 1) 0
      if (windowFilter d1 s1 ws we).isEmpty || (windowFilter d2 s2 ws we).isEmpty then 0
      else if ws ≤ x ∧ x ≤ we then bestOffset (windowFilter d1 s1 ws we) (windowFilter d2 s2 ws we)
      else 0)).sum)

end F1Delta

namespace F1Delta

set_option maxRecDepth 40000

/-! ## General lemmas about the list combinators of the embedding -/

lemma scanl_head (f : ℚ → ℚ → ℚ) (a : ℚ) (l : List ℚ) :
    (List.scanl f a l).head? = some a := by
  cases l <;> simp [List.scanl]

lemma scanl_ne_nil (f : ℚ → ℚ → ℚ) (a : ℚ) (l : List ℚ) :
    List.scanl f a l ≠ [] := by
  cases l <;> simp [List.scanl]

lemma scanl_add_getLastD (a d : ℚ) (l : List ℚ) :
    (List.scanl (· + ·) a l).getLastD d = a + l.sum := by
  induction l generalizing a d with
  | nil => simp [List.scanl]
  | cons x xs ih =>
    rw [List.scanl_cons, List.singleton_append, List.getLastD_cons, ih, List.sum_cons]
    ring

lemma getLastD_map (f : ℚ → ℚ) (l : List ℚ) (hne : l ≠ []) (d d' : ℚ) :
    (l.map f).getLastD d = f (l.getLastD d') := by
  induction l generalizing d d' with
  | nil => exact absurd rfl hne
  | cons x xs ih =>
    cases xs with
    | nil => simp [List.getLastD_cons]
    | cons y ys =>
      rw [List.map_cons, List.getLastD_cons, List.getLastD_cons]
      exact ih (List.cons_ne_nil _ _) _ _

lemma chain'_scanl_add (a : ℚ) (l : List ℚ) (h : ∀ x ∈ l, 0 ≤ x) :
    List.Chain' (· ≤ ·) (List.scanl (· + ·) a l) := by
  induction l generalizing a with
  | nil => simp [List.scanl]
  | cons x xs ih =>
    rw [List.scanl_cons, List.singleton_append]
    refine List.chain'_cons'.mpr ⟨?_, ih (a + x) (fun y hy => h y (List.mem_cons_of_mem _ hy))⟩
    intro y hy
    rw [scanl_head] at hy
    cases hy
    exact le_add_of_nonneg_right (h x (List.mem_cons_self _ _))

lemma chain'_map_mul_right (c : ℚ) (hc : 0 ≤ c) (l : List ℚ)
    (h : List.Chain' (· ≤ ·) l) :
    List.Chain' (· ≤ ·) (l.map (fun v => v * c)) := by
  rw [List.chain'_map]
  exact h.imp (fun _ _ hab => mul_le_mul_of_nonneg_right hab hc)

lemma mem_zipWith_imp {f : ℚ → ℚ → ℚ} {Q R P : ℚ → Prop}
    (hf : ∀ a b, Q a → R b → P (f a b)) :
    ∀ (l1 l2 : List ℚ), (∀ x ∈ l1, Q x) → (∀ y ∈ l2, R y) →
      ∀ z ∈ List.zipWith f l1 l2, P z := by
  intro l1
  induction l1 with
  | nil => intro l2 _ _ z hz; simp at hz
  | cons x xs ih =>
    intro l2 h1 h2 z hz
    cases l2 with
    | nil => simp at hz
    | cons y ys =>
      simp only [List.zipWith_cons_cons, List.mem_cons] at hz
      rcases hz with rfl | hz
      · exact hf x y (h1 x (List.mem_cons_self _ _)) (h2 y (List.mem_cons_self _ _))
      · exact ih ys (fun u hu => h1 u (List.mem_cons_of_mem _ hu))
          (fun u hu => h2 u (List.mem_cons_of_mem _ hu)) z hz

lemma diffList_pos : ∀ {l : List ℚ}, List.Chain' (· < ·) l → ∀ z ∈ diffList l, 0 < z := by
  intro l
  induction l with
  | nil => intro _ z hz; simp [diffList] at hz
  | cons x xs ih =>
    intro h z hz
    cases xs with
    | nil => simp [diffList] at hz
    | cons y ys =>
      have hd : diffList (x :: y :: ys) = (y - x) :: diffList (y :: ys) := rfl
      rw [hd, List.mem_cons] at hz
      rw [List.chain'_cons] at h
      rcases hz with rfl | hz
      · exact sub_pos.mpr h.1
      · exact ih h.2 z hz

lemma diffList_length (l : List ℚ) : (diffList l).length = l.length - 1 := by
  simp [diffList, List.length_zipWith, List.length_tail]

lemma customDivisors_length (s : List ℚ) : (customDivisors s).length = s.length - 1 := by
  simp [customDivisors, kmhToMs, List.length_zipWith, List.length_tail]

lemma customDivisors_pos {s : List ℚ} (h : ∀ v ∈ s, 0 ≤ v) :
    ∀ v ∈ customDivisors s, 0 < v := by
  intro v hv
  have hms : ∀ x ∈ kmhToMs s, 0 ≤ x := by
    intro x hx
    rcases List.mem_map.mp hx with ⟨w, hw, rfl⟩
    exact div_nonneg (h w hw) (by norm_num)
  unfold customDivisors at hv
  rcases List.mem_map.mp hv with ⟨w, hw, rfl⟩
  have hw0 : 0 ≤ w := by
    refine mem_zipWith_imp (Q := (0 ≤ ·)) (R := (0 ≤ ·))
      (fun a b ha hb => ?_) _ _ hms (fun u hu => hms u (List.mem_of_mem_tail hu)) w hw
    positivity
  by_cases hz : w = 0
  · simp [hz]
    norm_num
  · simp only [hz, if_false]
    exact lt_of_le_of_ne hw0 (Ne.symm hz)

/-! ## Claim C6 — a single-sample trace in `calculate_custom_time` -/

/-- Claim C6 (counterexample): for the single-sample trace
`Distance = [5]`, `Speed = [77]`, lap time 42, `calculate_custom_time`
returns the well-formed time column `[0]` — it raises nothing; no
`InvalidTraceError` exists anywhere in the repository, refuting the claim
that a one-sample trace fails with `InvalidTraceError`. -/
theorem custom_time_single_sample_returns :
    calculate_custom_time [5] [77] 42 = [0] := by
  with_unfolding_all decide

/-- Claim C6 (amended): for every trace with exactly one sample,
`calculate_custom_time` raises no error and returns the single-entry time
column `[0]` (the raw cumulative time is `[0]`, its last entry is not
positive, so the unscaled axis is returned unchanged). -/
theorem custom_time_single_sample (dv sv T : ℚ) :
    calculate_custom_time [dv] [sv] T = [0] := by
  unfold calculate_custom_time diffList customDivisors kmhToMs
  simp [List.scanl]

/-! ## Claim C7 — the divisors of `calculate_custom_time` -/

/-- Claim C7 (counterexample): with constant speed `0.0018 km/h`
(= `0.0005 m/s`), the single segment divisor of `calculate_custom_time` is
`0.0005 < 0.001`: the code substitutes `0.001` only for divisors that are
exactly zero (`np.where(avg_speeds == 0, ...)`, line 90), it does not
floor them at `0.001`. -/
theorem customDivisors_below_claimed_floor :
    customDivisors [9/5000, 9/5000] = [1/2000] ∧ ¬ ((0.001 : ℚ) ≤ 1/2000) := by
  constructor
  · with_unfolding_all decide
  · norm_num

/-- Claim C7 (amended): for every trace with non-negative speeds, every
divisor used for `dt = ds / avg_speed` in `calculate_custom_time` is
strictly positive (it equals `0.001` when the segment average is exactly
zero and the average itself otherwise), so the division is never by
zero — but it is not bounded below by `0.001`. -/
theorem customDivisors_positive (s : List ℚ) (hs : ∀ v ∈ s, 0 ≤ v) :
    ∀ v ∈ customDivisors s, 0 < v :=
  customDivisors_pos hs

/-- Claim C7 (witness): `1/2000` is a divisor produced by the
counterexample trace and the amended theorem proves it positive. -/
theorem customDivisors_positive_witness :
    ((1 : ℚ)/2000 ∈ customDivisors [9/5000, 9/5000]) ∧ (0 : ℚ) < 1/2000 :=
  ⟨by with_unfolding_all decide,
   customDivisors_positive [9/5000, 9/5000] (by norm_num) (1/2000)
     (by with_unfolding_all decide)⟩

/-! ## Claim C2 — endpoints and monotonicity of `calculate_custom_time` -/

/-- Claim C2: for every trace with at least two samples, strictly
increasing distances and non-negative speeds (all values finite by
construction over `ℚ`), the reconstructed time channel starts at 0, is
non-decreasing, and ends exactly at the real lap time (exact over `ℚ`,
hence within 1e-6 s); the raw integrated time is automatically positive
for such traces, so the rescaling branch is always taken. -/
theorem custom_time_endpoints (d s : List ℚ) (T : ℚ)
    (hn : 2 ≤ d.length) (hlen : d.length = s.length)
    (hinc : List.Pairwise (· < ·) d) (hs : ∀ v ∈ s, 0 ≤ v) (hT : 0 < T) :
    (calculate_custom_time d s T).head? = some 0 ∧
    List.Chain' (· ≤ ·) (calculate_custom_time d s T) ∧
    (calculate_custom_time d s T).getLastD 0 = T := by
  have hdtpos : ∀ z ∈ List.zipWith (fun a b => a / b) (diffList d) (customDivisors s), 0 < z :=
    mem_zipWith_imp (fun a b ha hb => div_pos ha hb) _ _
      (diffList_pos hinc.chain') (customDivisors_pos hs)
  have hdtne : List.zipWith (fun a b => a / b) (diffList d) (customDivisors s) ≠ [] := by
    have hl : (List.zipWith (fun a b => a / b) (diffList d) (customDivisors s)).length
        = min (diffList d).length (customDivisors s).length := List.length_zipWith _ _ _
    rw [diffList_length, customDivisors_length] at hl
    have : 0 < (List.zipWith (fun a b => a / b) (diffList d) (customDivisors s)).length := by
      omega
    exact List.ne_nil_of_length_pos this
  have hsum : 0 < (List.zipWith (fun a b => a / b) (diffList d) (customDivisors s)).sum :=
    List.sum_pos _ hdtpos hdtne
  have hlast : (List.scanl (· + ·) 0
      (List.zipWith (fun a b => a / b) (diffList d) (customDivisors s))).getLastD 0
      = (List.zipWith (fun a b => a / b) (diffList d) (customDivisors s)).sum := by
    rw [scanl_add_getLastD]; ring
  have hcond : 0 < (List.scanl (· + ·) 0
      (List.zipWith (fun a b => a / b) (diffList d) (customDivisors s))).getLastD 0 := by
    rw [hlast]; exact hsum
  have hres : calculate_custom_time d s T
      = (List.scanl (· + ·) 0 (List.zipWith (fun a b => a / b) (diffList d) (customDivisors s))).map
          (fun t => t * (T / (List.scanl (· + ·) 0
            (List.zipWith (fun a b => a / b) (diffList d) (customDivisors s))).getLastD 0)) := by
    unfold calculate_custom_time
    rw [if_pos hcond]
  refine ⟨?_, ?_, ?_⟩
  · rw [hres, List.head?_map, scanl_head]
    simp
  · rw [hres]
    exact chain'_map_mul_right _ (div_nonneg hT.le (hlast ▸ hsum).le) _
      (chain'_scanl_add _ _ (fun x hx => (hdtpos x hx).le))
  · rw [hres, getLastD_map _ _ (scanl_ne_nil _ _ _) 0 0, hlast]
    field_simp

/-- Claim C2 (witness): the two-sample trace `Distance = [0, 5]`,
`Speed = [36, 36]` km/h with lap time 90 s satisfies every hypothesis and
the reconstructed channel is `[0, 90]`. -/
theorem custom_time_endpoints_witness :
    (2 ≤ ([0, 5] : List ℚ).length) ∧
    ((calculate_custom_time [0, 5] [36, 36] 90).head? = some 0 ∧
     List.Chain' (· ≤ ·) (calculate_custom_time [0, 5] [36, 36] 90) ∧
     (calculate_custom_time [0, 5] [36, 36] 90).getLastD 0 = 90) :=
  ⟨by decide,
   custom_time_endpoints [0, 5] [36, 36] 90 (by decide) (by decide)
     (by decide) (by norm_num) (by norm_num)⟩


/-! ## Claim C1 — endpoints of `calculate_integration_delta` -/

/-- Claim C1: for every pair of resampled grid traces (equal-length speed
columns over the shared distance grid) and every pair of lap times, when
the raw cumulative delta's final magnitude is nonzero,
`calculate_integration_delta` succeeds with a series whose first element is
0 and whose final magnitude equals `|lap_time1 - lap_time2|` exactly
(hence within 1e-6 s). -/
theorem integration_delta_endpoints (s1 s2 d : List ℚ) (t1 t2 : ℚ)
    (hl1 : s1.length = d.length) (hl2 : s2.length = d.length)
    (hraw : (integrationRaw s1 s2 d t1 t2).getLastD 0 ≠ 0) :
    ∃ out, calculate_integration_delta s1 s2 d t1 t2 = Except.ok out ∧
      out.head? = some 0 ∧ |out.getLastD 0| = |t1 - t2| := by
  have hne : integrationRaw s1 s2 d t1 t2 ≠ [] := by
    unfold integrationRaw integrationRawDelta
    split <;> exact scanl_ne_nil _ _ _
  have hhead : (integrationRaw s1 s2 d t1 t2).head? = some 0 := by
    unfold integrationRaw integrationRawDelta
    split <;> exact scanl_head _ _ _
  have habs : 0 < |(integrationRaw s1 s2 d t1 t2).getLastD 0| := abs_pos.mpr hraw
  refine ⟨(integrationRaw s1 s2 d t1 t2).map
      (fun v => v * (|t1 - t2| / |(integrationRaw s1 s2 d t1 t2).getLastD 0|)), ?_, ?_, ?_⟩
  · unfold calculate_integration_delta
    rw [if_pos habs]
  · rw [List.head?_map, hhead]
    simp
  · rw [getLastD_map _ _ hne 0 0, abs_mul,
      abs_of_nonneg (div_nonneg (abs_nonneg (t1 - t2)) (abs_nonneg _))]
    rw [mul_comm, div_mul_cancel₀]
    exact ne_of_gt habs

/-- Claim C1 (witness): two-point grid `[0, 5]` with speeds
`[100, 100]` and `[72, 72]` km/h, lap times 90 and 91: the raw delta ends
at `7/100 ≠ 0` and the scaled output is `[0, 1]`. -/
theorem integration_delta_endpoints_witness :
    ((integrationRaw [100, 100] [72, 72] [0, 5] 90 91).getLastD 0 ≠ 0) ∧
    (∃ out, calculate_integration_delta [100, 100] [72, 72] [0, 5] 90 91 = Except.ok out ∧
      out.head? = some 0 ∧ |out.getLastD 0| = |(90 : ℚ) - 91|) :=
  ⟨by with_unfolding_all decide,
   integration_delta_endpoints [100, 100] [72, 72] [0, 5] 90 91 rfl rfl
     (by with_unfolding_all decide)⟩

/-! ## Claim C4 — zero raw delta crashes the rescaling diagnostics -/

/-- Claim C4 (code bug): when the raw cumulative delta ends at exactly 0
(e.g. identical resampled speed columns `[100, 100]` over the grid
`[0, 5]`, lap times 90 and 91), the source does *not* return the raw
unscaled series: line 263 prints `scale_factor`, which is only assigned
inside the rescaling branch, so the call dies with `UnboundLocalError`.
The embedding models that crash as the error result. -/
theorem integration_delta_zero_raw_crashes :
    calculate_integration_delta [100, 100] [100, 100] [0, 5] 90 91
      = Except.error
          "UnboundLocalError: local variable scale_factor referenced before assignment" := by
  with_unfolding_all rfl

/-! ## Claim C10 — tie on lap times picks trace 2 as reference -/

/-- Claim C10: when the two final times are exactly equal,
`calculate_integration_delta` takes the `else` branch of lines 220–226,
assigning trace 2's speeds to the reference role and trace 1's to the
comparison role, so the raw cumulative delta accumulates
`dt(trace1) - dt(trace2)` per segment. -/
theorem integration_tie_reference (s1 s2 d : List ℚ) (t1 t2 : ℚ) (h : t1 = t2) :
    integrationRaw s1 s2 d t1 t2
      = List.scanl (· + ·) 0
          (List.zipWith (fun a b => a - b)
            (segTimes d (kmhToMs s1)) (segTimes d (kmhToMs s2))) := by
  subst h
  unfold integrationRaw
  rw [if_neg (lt_irrefl t1)]
  rfl

/-- Claim C10 (witness): concrete instance with equal lap times 90 = 90. -/
theorem integration_tie_reference_witness :
    ((90 : ℚ) = 90) ∧
    integrationRaw [100, 100] [72, 72] [0, 5] 90 90
      = List.scanl (· + ·) 0
          (List.zipWith (fun a b => a - b)
            (segTimes [0, 5] (kmhToMs [100, 100])) (segTimes [0, 5] (kmhToMs [72, 72]))) :=
  ⟨rfl, integration_tie_reference [100, 100] [72, 72] [0, 5] 90 90 rfl⟩


/-! ## Claims C5 and C8 — the alignment apply step -/

lemma alignStep_eq_map (d1 s1 d2 s2 : List ℚ) (ws we : ℚ) (dcur : List ℚ) :
    alignStep d1 s1 d2 s2 ws we dcur = dcur.map (alignShift d1 s1 d2 s2 ws we) := by
  unfold alignStep alignShift
  cases hcond : ((windowFilter d1 s1 ws we).isEmpty || (windowFilter d2 s2 ws we).isEmpty) with
  | true => simp [hcond]
  | false => simp [hcond]

lemma foldl_map_comm (F : ℕ → ℚ → ℚ) :
    ∀ (idxs : List ℕ) (l : List ℚ),
      idxs.foldl (fun acc i => acc.map (F i)) l
        = l.map (fun x => idxs.foldl (fun y i => F i y) x) := by
  intro idxs
  induction idxs with
  | nil => intro l; simp
  | cons i is ih =>
    intro l
    rw [List.foldl_cons, ih, List.map_map]
    rfl

/-- Claim C5 (amended): the apply step of `windowed_mse_alignment` acts
per sample as a fold over the windows in order, where window `i`'s chosen
offset is added exactly when the sample's *current* distance — the value
after the shifts of windows `0..i-1` — lies inside window `i`'s bounds;
skipped windows leave the value unchanged.  Equivalently, the output is
the pointwise window-fold of `alignShift` applied to the original
distances. -/
theorem alignment_shifts_current (d1 s1 d2 s2 : List ℚ) (n : ℕ) :
    windowed_mse_alignment d1 s1 d2 s2 n
      = d2.map (fun x => (List.range n).foldl
          (fun y i => alignShift d1 s1 d2 s2 ((windowBoundaries d1 d2 n).getD i 0)
            ((windowBoundaries d1 d2 n).getD (i + 1) 0) y) x) := by
  unfold windowed_mse_alignment
  simp only [alignStep_eq_map]
  exact foldl_map_comm _ (List.range n) d2

/-- Claim C5 (counterexample): for the identical constant-speed traces
`Distance = [0,1,2,3,4]`, `Speed = 36` km/h everywhere and 2 windows, the
code's alignment output `[-1, 0, 1, 2, 3]` differs from the behaviour the
claim describes (each window's offset added to the samples whose
*original* distance lies in the window, `[-1, 0, 0, 2, 3]`): the sample at
distance 2 sits on both windows' inclusive bounds, window 1 moves it to 1,
and window 2's mask — evaluated on the already-shifted value 1 — no longer
contains it. -/
theorem alignment_not_original_mask :
    windowed_mse_alignment [0, 1, 2, 3, 4] (List.replicate 5 36)
        [0, 1, 2, 3, 4] (List.replicate 5 36) 2
      ≠ alignment_original_mask [0, 1, 2, 3, 4] (List.replicate 5 36)
          [0, 1, 2, 3, 4] (List.replicate 5 36) 2 := by
  with_unfolding_all decide

lemma foldl_bestOffset_none (w1 w2 : List (ℚ × ℚ)) :
    ∀ (cands : List ℚ) (st : ℚ × Option ℚ),
      (∀ o ∈ cands, offsetMse w1 w2 o = none) →
      cands.foldl
        (fun st o =>
          match offsetMse w1 w2 o with
          | none => st
          | some m =>
            match st.2 with
            | none => (o, some m)
            | some bm => if m < bm then (o, some m) else st) st = st := by
  intro cands
  induction cands with
  | nil => intro st _; rfl
  | cons o os ih =>
    intro st h
    rw [List.foldl_cons, h o (List.mem_cons_self _ _)]
    exact ih st (fun o' ho' => h o' (List.mem_cons_of_mem _ ho'))

lemma map_masked_add_zero (ws we : ℚ) (l : List ℚ) :
    l.map (fun x => if ws ≤ x ∧ x ≤ we then x + 0 else x) = l := by
  induction l with
  | nil => rfl
  | cons x xs ih =>
    rw [List.map_cons, ih]
    split <;> simp

/-- Claim C8: a window whose restriction of either trace is empty, or in
which no candidate offset produces a non-empty intersection of distance
ranges, changes nothing: no error is raised (the step is total) and every
sample keeps its distance, so the aligned trace still covers the full
common span. -/
theorem alignStep_degenerate (d1 s1 d2 s2 : List ℚ) (ws we : ℚ) (dcur : List ℚ)
    (h : (windowFilter d1 s1 ws we).isEmpty = true
       ∨ (windowFilter d2 s2 ws we).isEmpty = true
       ∨ ∀ o ∈ offsetCandidates,
           offsetMse (windowFilter d1 s1 ws we) (windowFilter d2 s2 ws we) o = none) :
    alignStep d1 s1 d2 s2 ws we dcur = dcur := by
  unfold alignStep
  rcases h with h | h | h
  · simp [h]
  · simp [h]
  · cases hcond : ((windowFilter d1 s1 ws we).isEmpty || (windowFilter d2 s2 ws we).isEmpty) with
    | true => simp [hcond]
    | false =>
      simp only [hcond, Bool.false_eq_true, if_false]
      have hbo : bestOffset (windowFilter d1 s1 ws we) (windowFilter d2 s2 ws we) = 0 := by
        unfold bestOffset
        rw [foldl_bestOffset_none _ _ offsetCandidates ((0 : ℚ), (none : Option ℚ)) h]
      rw [hbo]
      exact map_masked_add_zero ws we dcur

/-- Claim C8 (witness): the window `[100, 110]` is empty for the trace
`Distance = [0, 10]`, so the step leaves the running distances `[0, 10]`
unchanged. -/
theorem alignStep_degenerate_witness :
    ((windowFilter [0, 10] [36, 36] 100 110).isEmpty = true) ∧
    alignStep [0, 10] [36, 36] [0, 10] [36, 36] 100 110 [0, 10] = [0, 10] :=
  ⟨by with_unfolding_all decide,
   alignStep_degenerate [0, 10] [36, 36] [0, 10] [36, 36] 100 110 [0, 10]
     (Or.inl (by with_unfolding_all decide))⟩


/-! ## Claim C9 — interpolation round-trip -/

lemma interp_at_knot :
    ∀ (d s : List ℚ), List.Pairwise (· < ·) d → d.length = s.length →
      ∀ (j : ℕ) (hj : j < d.length) (hjs : j < s.length),
        interp (d.get ⟨j, hj⟩) d s = s.get ⟨j, hjs⟩ := by
  intro d
  induction d with
  | nil => intro s _ _ j hj; exact absurd hj (by simp)
  | cons x1 xs ih =>
    intro s hp hlen j hj hjs
    cases s with
    | nil => simp at hlen
    | cons y1 ys =>
      cases xs with
      | nil =>
        cases ys with
        | nil =>
          rcases j with _ | j
          · simp [interp]
          · exact absurd hj (by simp)
        | cons => simp at hlen
      | cons x2 xs' =>
        cases ys with
        | nil => simp at hlen
        | cons y2 ys' =>
          rw [List.pairwise_cons] at hp
          obtain ⟨hx1, hp'⟩ := hp
          rcases j with _ | j
          · show interp x1 (x1 :: x2 :: xs') (y1 :: y2 :: ys') = y1
            simp [interp]
          · rcases j with _ | k
            · have h12 : x1 < x2 := hx1 x2 (List.mem_cons_self _ _)
              show interp x2 (x1 :: x2 :: xs') (y1 :: y2 :: ys') = y2
              simp only [interp]
              rw [if_neg (not_le.mpr h12), if_pos le_rfl]
              have hne : x2 - x1 ≠ 0 := sub_ne_zero.mpr (ne_of_gt h12)
              field_simp
            · have hq : (x1 :: x2 :: xs').get ⟨k + 2, hj⟩ = (x2 :: xs').get ⟨k + 1, by
                  simpa using hj⟩ := rfl
              have hqs : (y1 :: y2 :: ys').get ⟨k + 2, hjs⟩ = (y2 :: ys').get ⟨k + 1, by
                  simpa using hjs⟩ := rfl
              rw [hq, hqs]
              have hmem : (x2 :: xs').get ⟨k + 1, by simpa using hj⟩ ∈ x2 :: xs' :=
                List.get_mem _ _ _
              have hx1q : x1 < (x2 :: xs').get ⟨k + 1, by simpa using hj⟩ := hx1 _ hmem
              have hx2q : x2 < (x2 :: xs').get ⟨k + 1, by simpa using hj⟩ := by
                have hmem' : (x2 :: xs').get ⟨k + 1, by simpa using hj⟩ ∈ xs' := by
                  have : (x2 :: xs').get ⟨k + 1, by simpa using hj⟩ = xs'.get ⟨k, by
                      simpa using hj⟩ := rfl
                  rw [this]
                  exact List.get_mem _ _ _
                exact (List.pairwise_cons.mp hp').1 _ hmem'
              show interp _ (x1 :: x2 :: xs') (y1 :: y2 :: ys') = _
              simp only [interp]
              rw [if_neg (not_le.mpr hx1q), if_neg (not_le.mpr hx2q)]
              exact ih (y2 :: ys') hp' (by simpa using hlen) (k + 1)
                (by simpa using hj) (by simpa using hjs)

/-- Claim C9: linearly interpolating a trace's speed channel — with the
same `np.interp` used by `resample_on_common_grid` — at the trace's own
strictly increasing distance values reproduces the original speed values
exactly (hence within interpolation tolerance). -/
theorem resample_roundtrip (d s : List ℚ)
    (hinc : List.Pairwise (· < ·) d) (hlen : d.length = s.length) :
    d.map (fun x => interp x d s) = s := by
  apply List.ext_get (by simpa using hlen)
  intro n h1 h2
  rw [List.get_map]
  exact interp_at_knot d s hinc hlen n (by simpa using h1) h2

/-- Claim C9 (witness): interpolating `[1, 2, 4]` over knots `[0, 5, 10]`
at the knots themselves returns `[1, 2, 4]`. -/
theorem resample_roundtrip_witness :
    List.Pairwise (· < ·) ([0, 5, 10] : List ℚ) ∧
    ([0, 5, 10] : List ℚ).map (fun x => interp x [0, 5, 10] [1, 2, 4]) = [1, 2, 4] :=
  ⟨by decide, resample_roundtrip [0, 5, 10] [1, 2, 4] (by decide) rfl⟩


/-! ## Claim C3 — the end-to-end identical-trace scenario -/

lemma interp_const (c : ℚ) :
    ∀ (d s : List ℚ), d ≠ [] → d.length = s.length → (∀ y ∈ s, y = c) →
      ∀ x, interp x d s = c := by
  intro d
  induction d with
  | nil => intro s h; exact absurd rfl h
  | cons x1 xs ih =>
    intro s _ hlen hs x
    cases s with
    | nil => simp at hlen
    | cons y1 ys =>
      have hy1 : y1 = c := hs y1 (List.mem_cons_self _ _)
      cases xs with
      | nil =>
        cases ys with
        | nil => simp [interp, hy1]
        | cons => simp at hlen
      | cons x2 xs' =>
        cases ys with
        | nil => simp at hlen
        | cons y2 ys' =>
          have hy2 : y2 = c := hs y2 (by simp)
          simp only [interp]
          split_ifs with h1 h2
          · exact hy1
          · rw [hy1, hy2, sub_self, zero_mul, zero_div, add_zero]
          · exact ih (y2 :: ys') (List.cons_ne_nil _ _) (by simpa using hlen)
              (fun y hy => hs y (List.mem_cons_of_mem _ hy)) x

lemma alignStep_length (d1 s1 d2 s2 : List ℚ) (ws we : ℚ) (dcur : List ℚ) :
    (alignStep d1 s1 d2 s2 ws we dcur).length = dcur.length := by
  unfold alignStep
  split
  · rfl
  · simp

lemma foldl_alignStep_length (d1 s1 d2 s2 : List ℚ) (bnds : List ℚ) :
    ∀ (idxs : List ℕ) (dcur : List ℚ),
      (idxs.foldl
        (fun dc i => alignStep d1 s1 d2 s2 (bnds.getD i 0) (bnds.getD (i + 1) 0) dc)
        dcur).length = dcur.length := by
  intro idxs
  induction idxs with
  | nil => intro dcur; rfl
  | cons i is ih =>
    intro dcur
    rw [List.foldl_cons, ih, alignStep_length]

lemma windowed_alignment_length (d1 s1 d2 s2 : List ℚ) (n : ℕ) :
    (windowed_mse_alignment d1 s1 d2 s2 n).length = d2.length :=
  foldl_alignStep_length d1 s1 d2 s2 _ _ _

lemma zipWith_sub_self (l : List ℚ) :
    List.zipWith (fun a b => a - b) l l = List.replicate l.length 0 := by
  induction l with
  | nil => rfl
  | cons x xs ih => simp [List.replicate_succ, ih]

lemma integrationRawDelta_self_getLastD (a d : List ℚ) :
    (integrationRawDelta a a d).getLastD 0 = 0 := by
  unfold integrationRawDelta
  rw [zipWith_sub_self, scanl_add_getLastD]
  simp

lemma integration_delta_equal_speeds (sp grid : List ℚ) (t1 t2 : ℚ) :
    calculate_integration_delta sp sp grid t1 t2
      = Except.error
          "UnboundLocalError: local variable scale_factor referenced before assignment" := by
  have hraw : (integrationRaw sp sp grid t1 t2).getLastD 0 = 0 := by
    unfold integrationRaw
    split <;> exact integrationRawDelta_self_getLastD _ _
  unfold calculate_integration_delta
  simp [hraw]
  rwa [← List.getLastD_eq_getLast?]

lemma pipeline_error_of_const (d s : List ℚ) (c t1 t2 : ℚ) (n : ℕ) (step : ℚ)
    (hd : d ≠ []) (hlen : d.length = s.length) (hs : ∀ y ∈ s, y = c) :
    calculate_delta_core d s d s t1 t2 n step
      = Except.error
          "UnboundLocalError: local variable scale_factor referenced before assignment" := by
  have hd2alen : (windowed_mse_alignment d s d s n).length = d.length :=
    windowed_alignment_length _ _ _ _ _
  have hd2ane : windowed_mse_alignment d s d s n ≠ [] := by
    apply List.ne_nil_of_length_pos
    rw [hd2alen]
    exact List.length_pos.mpr hd
  have hcore : calculate_delta_core d s d s t1 t2 n step
      = calculate_integration_delta
          ((arange
              (max (listMin d) (listMin (windowed_mse_alignment d s d s n)))
              (min (listMax d) (listMax (windowed_mse_alignment d s d s n)) + step)
              step).map (fun x => interp x d s))
          ((arange
              (max (listMin d) (listMin (windowed_mse_alignment d s d s n)))
              (min (listMax d) (listMax (windowed_mse_alignment d s d s n)) + step)
              step).map (fun x => interp x (windowed_mse_alignment d s d s n) s))
          (arange
              (max (listMin d) (listMin (windowed_mse_alignment d s d s n)))
              (min (listMax d) (listMax (windowed_mse_alignment d s d s n)) + step)
              step)
          t1 t2 := rfl
  have hmap : (arange
        (max (listMin d) (listMin (windowed_mse_alignment d s d s n)))
        (min (listMax d) (listMax (windowed_mse_alignment d s d s n)) + step)
        step).map (fun x => interp x d s)
      = (arange
          (max (listMin d) (listMin (windowed_mse_alignment d s d s n)))
          (min (listMax d) (listMax (windowed_mse_alignment d s d s n)) + step)
          step).map (fun x => interp x (windowed_mse_alignment d s d s n) s) := by
    apply List.map_congr_left
    intro x _
    rw [interp_const c d s hd hlen hs x,
      interp_const c (windowed_mse_alignment d s d s n) s hd2ane (by rw [hd2alen, hlen]) hs x]
  rw [hcore, hmap]
  exact integration_delta_equal_speeds _ _ _ _

/-- Claim C3 (counterexample): for the spec's end-to-end scenario — two
identical traces with `Distance = [0, 100, ..., 1000]`, identical
(constant 100 km/h) speeds, lap times 90 s and 91 s — the pipeline does
*not* produce a delta curve at all: every per-segment delta is zero, so the
raw cumulative delta ends at 0 and the rescaling diagnostics crash. -/
theorem pipeline_identical_traces_no_output :
    (calculate_delta_core
        [0, 100, 200, 300, 400, 500, 600, 700, 800, 900, 1000] (List.replicate 11 100)
        [0, 100, 200, 300, 400, 500, 600, 700, 800, 900, 1000] (List.replicate 11 100)
        90 91 4 5).isOk = false := by
  rw [pipeline_error_of_const
    [0, 100, 200, 300, 400, 500, 600, 700, 800, 900, 1000] (List.replicate 11 100)
    100 90 91 4 5 (List.cons_ne_nil _ _) rfl (fun _ hy => List.eq_of_mem_replicate hy)]
  rfl

/-- Claim C3 (amended): on the scenario's input the two resampled speed
columns are identical, the raw cumulative delta is identically zero
(final value 0), the rescaling is skipped, and the run fails with the
unbound `scale_factor` diagnostic (line 263) instead of producing a
1.0 s monotone ramp. -/
theorem pipeline_identical_traces_crash :
    calculate_delta_core
        [0, 100, 200, 300, 400, 500, 600, 700, 800, 900, 1000] (List.replicate 11 100)
        [0, 100, 200, 300, 400, 500, 600, 700, 800, 900, 1000] (List.replicate 11 100)
        90 91 4 5
      = Except.error
          "UnboundLocalError: local variable scale_factor referenced before assignment" :=
  pipeline_error_of_const
    [0, 100, 200, 300, 400, 500, 600, 700, 800, 900, 1000] (List.replicate 11 100)
    100 90 91 4 5 (List.cons_ne_nil _ _) rfl (fun _ hy => List.eq_of_mem_replicate hy)

end F1Delta
